import Mathlib

/-!
Verification of the metadata-parsing helpers in
`src/databricks/sqlalchemy/_parse.py`.

The Python module is a collection of pure string functions built on three
regular expressions and on Python's substring operator.  The embedding below
models each function over `List Char` / `String`:

* Python `needle in haystack` becomes `containsSub`;
* `re.findall` for the pattern backtick `[A-Za-z0-9_]+` backtick becomes the
  left-to-right, non-overlapping scanner `scanIdentAux`;
* `re.findall` for the parenthesised-group pattern becomes `scanGroupsAux`;
* `re.findall` for `REFERENCES\s+(.*?)\s*\(` becomes `refFindAll`, built from
  the greedy / lazy sub-matchers `trySpaceParen`, `tryDotLazy`, `tryRefTail`;
* a Python function that can raise (`IndexError` on a short list, `TypeError`
  on subscripting `None`) returns `Except String _`;
* the `Optional` return annotation of `get_pk_strings_from_dte_output` is
  modelled by an `Option` codomain, `none` standing for Python `None`.

All scanners are structurally recursive on an explicit fuel argument equal to
the length of the unscanned text, so every definition evaluates by `rfl` /
`decide`.
-/

/-- The backtick character, written by code point to keep it out of the
source text. -/
def btick : Char := Char.ofNat 96

/-- The character class `[A-Za-z0-9_]` used by `DatabricksIdentifierPreparer`
and by the identifier regex. -/
def isIdentChar (c : Char) : Bool :=
  ('A' ≤ c && c ≤ 'Z') || ('a' ≤ c && c ≤ 'z') || ('0' ≤ c && c ≤ '9') || c == '_'

/-- Python's `\s` class on the ASCII range: space, tab, newline, carriage
return, vertical tab, form feed. -/
def isPySpace (c : Char) : Bool :=
  c == ' ' || c == '\t' || c == '\n' || c == '\r' || c == Char.ofNat 11 || c == Char.ofNat 12

/-- The character class of the group regex: backtick, `[A-Za-z0-9_]`, comma,
whitespace. -/
def isGroupChar (c : Char) : Bool :=
  c == btick || isIdentChar c || c == ',' || isPySpace c

/-- `beginsWith h n` holds when the list `n` is an initial segment of `h`. -/
def beginsWith : List Char → List Char → Bool
  | _, [] => true
  | [], _ :: _ => false
  | c :: cs, d :: ds => c == d && beginsWith cs ds

/-- Python's substring operator `n in h` on character lists. -/
def containsSub (h n : List Char) : Bool :=
  match h with
  | [] => beginsWith [] n
  | _ :: t => beginsWith h n || containsSub t n

/-- Error text used by DBR up to version 12. -/
def DBR_LTE_12_NOT_FOUND_STRING : String := "Table or view not found"

/-- Error text used by DBR after version 12. -/
def DBR_GT_12_NOT_FOUND_STRING : String := "TABLE_OR_VIEW_NOT_FOUND"

/-- `_match_table_not_found_string`: true when the message contains either
known "table not found" substring. -/
def _match_table_not_found_string (message : String) : Bool :=
  containsSub message.data DBR_LTE_12_NOT_FOUND_STRING.data ||
  containsSub message.data DBR_GT_12_NOT_FOUND_STRING.data

/-- `re.findall` of the pattern backtick `[A-Za-z0-9_]+` backtick, returning
the captured groups.  At an opening backtick the greedy `+` takes the maximal
run of identifier characters and then requires a closing backtick; the char
class excludes the backtick, so no shorter run can succeed and a failed
attempt moves the scan one character forward, while a successful match
resumes after its closing backtick.  Fuel is the length of the text. -/
def scanIdentAux : Nat → List Char → List String
  | 0, _ => []
  | _ + 1, [] => []
  | f + 1, c :: rest =>
    if c = btick then
      match rest.dropWhile isIdentChar with
      | d :: tail =>
        if d = btick then
          if rest.takeWhile isIdentChar = [] then scanIdentAux f rest
          else String.mk (rest.takeWhile isIdentChar) :: scanIdentAux f tail
        else scanIdentAux f rest
      | [] => scanIdentAux f rest
    else scanIdentAux f rest

/-- `extract_identifiers_from_string`: all regex matches of a backtick-quoted
identifier, backticks stripped, in scan order. -/
def extract_identifiers_from_string (input_str : String) : List String :=
  scanIdentAux input_str.data.length input_str.data

/-- `re.findall` of the group pattern: open paren, any run over
`isGroupChar`, close paren.  The class excludes both parens, so at an open
paren the greedy star is forced to the maximal run, which must be followed by
a close paren; otherwise the scan advances one character. -/
def scanGroupsAux : Nat → List Char → List String
  | 0, _ => []
  | _ + 1, [] => []
  | f + 1, c :: rest =>
    if c = '(' then
      match rest.dropWhile isGroupChar with
      | d :: tail =>
        if d = ')' then
          String.mk ('(' :: (rest.takeWhile isGroupChar ++ [')'])) :: scanGroupsAux f tail
        else scanGroupsAux f rest
      | [] => scanGroupsAux f rest
    else scanGroupsAux f rest

/-- `extract_identifier_groups_from_string`: the parenthesised identifier
groups of the input, as full matched substrings. -/
def extract_identifier_groups_from_string (input_str : String) : List String :=
  scanGroupsAux input_str.data.length input_str.data

/-- The tail `\s*\(` of the REFERENCES pattern: greedy whitespace then a
literal open paren.  Since `(` is not whitespace, only the maximal
whitespace run can precede it, so no backtracking is needed.  Returns the
text after the paren. -/
def trySpaceParen (u : List Char) : Option (List Char) :=
  match u.dropWhile isPySpace with
  | '(' :: r => some r
  | _ => none

/-- The lazy `(.*?)\s*\(` part of the REFERENCES pattern: first try to close
with `\s*\(` here, otherwise let `.` (which matches anything but a newline)
consume one character and retry.  Returns the captured group and the text
after the paren. -/
def tryDotLazy (u : List Char) : Option (List Char × List Char) :=
  match trySpaceParen u with
  | some r => some ([], r)
  | none =>
    match u with
    | [] => none
    | c :: rest =>
      if c = '\n' then none
      else (tryDotLazy rest).map (fun gr => (c :: gr.1, gr.2))

/-- The `\s+(.*?)\s*\(` tail of the REFERENCES pattern.  The greedy `\s+`
tries the maximal whitespace run first; if the lazy remainder fails from the
end of that run it also fails from any shorter run (the skipped characters
are whitespace, which either feed `.` into the same failure or are a newline
and fail immediately), so the maximal run is the only case. -/
def tryRefTail (t : List Char) : Option (List Char × List Char) :=
  if (t.takeWhile isPySpace).isEmpty then none
  else tryDotLazy (t.dropWhile isPySpace)

/-- The literal `REFERENCES` of the pattern. -/
def refKeyword : List Char := "REFERENCES".data

/-- One attempt of the full pattern `REFERENCES\s+(.*?)\s*\(` anchored at the
head of `s`; on success returns the captured group and the unscanned rest. -/
def matchRefAt (s : List Char) : Option (List Char × List Char) :=
  if s.take 10 = refKeyword then tryRefTail (s.drop 10) else none

/-- `re.findall` scan loop for the REFERENCES pattern: try a match at each
position, emit the captured group and resume after the match.  Fuel is the
length of the text; every step consumes at least one character. -/
def refFindAllAux : Nat → List Char → List String
  | 0, _ => []
  | _ + 1, [] => []
  | f + 1, c :: rest =>
    match matchRefAt (c :: rest) with
    | some (g, r) => String.mk g :: refFindAllAux f r
    | none => refFindAllAux f rest

/-- All captured groups of `REFERENCES\s+(.*?)\s*\(` over the input, in scan
order. -/
def refFindAll (s : List Char) : List String :=
  refFindAllAux s.length s

/-- Python `str.split(".")` for a one-character separator: the empty string
yields one empty part, and every dot opens a new part. -/
def splitOnDot : List Char → List (List Char)
  | [] => [[]]
  | c :: rest =>
    if c = '.' then [] :: splitOnDot rest
    else
      match splitOnDot rest with
      | h :: t => (c :: h) :: t
      | [] => [[c]]

/-- Python `input.replace(backtick, "")`. -/
def stripBackticks (s : List Char) : List Char :=
  s.filter (fun c => c != btick)

/-- The `{catalog, schema, table}` dictionary returned by the three-level
identifier extractor. -/
structure ThreeLevelId where
  catalog : String
  schema : String
  table : String
  deriving DecidableEq

/-- The body of the three-level extractor applied to one captured group:
split it on dots (Python `first_match.split`), take parts 0, 1, 2 and strip
backticks from each.  `Except` models the `IndexError` raised when the match
has fewer than three dot-separated parts. -/
def threeLevelFromMatch (fm : String) : Except String (Option ThreeLevelId) :=
  match (splitOnDot fm.data)[0]?, (splitOnDot fm.data)[1]?, (splitOnDot fm.data)[2]? with
  | some p0, some p1, some p2 =>
    Except.ok (some
      { catalog := String.mk (stripBackticks p0)
        schema := String.mk (stripBackticks p1)
        table := String.mk (stripBackticks p2) })
  | _, _, _ => Except.error "IndexError: list index out of range"

/-- `extract_three_level_identifier_from_constraint_string`: find the
`REFERENCES ... (` matches; none means Python `return None` (modelled
`.ok none`), otherwise the result is built from the first match only. -/
def extract_three_level_identifier_from_constraint_string (input_str : String) :
    Except String (Option ThreeLevelId) :=
  match refFindAll input_str.data with
  | [] => Except.ok none
  | fm :: _ => threeLevelFromMatch fm

/-- The fields of `_parse_fk_from_constraint_string`'s result dictionary.
`referred_schema` is a plain string here: the parser always fills it from
the constraint text. -/
structure FkBase where
  constrained_columns : List String
  referred_table : String
  referred_columns : List String
  referred_schema : String
  deriving DecidableEq

/-- `_parse_fk_from_constraint_string`.  Subscripting the `None` returned by
the three-level extractor raises a `TypeError` in Python; a missing first or
second identifier group raises an `IndexError`; both are `Except.error`
here. -/
def _parse_fk_from_constraint_string (constraint_str : String) : Except String FkBase :=
  match extract_three_level_identifier_from_constraint_string constraint_str with
  | Except.error e => Except.error e
  | Except.ok none => Except.error "TypeError: NoneType object is not subscriptable"
  | Except.ok (some tl) =>
    match (extract_identifier_groups_from_string constraint_str)[0]?,
          (extract_identifier_groups_from_string constraint_str)[1]? with
    | some constrained_columns_str, some referred_columns_str =>
      Except.ok
        { constrained_columns := extract_identifiers_from_string constrained_columns_str
          referred_table := tl.table
          referred_columns := extract_identifiers_from_string referred_columns_str
          referred_schema := tl.schema }
    | _, _ => Except.error "IndexError: tuple index out of range"

/-- Python truthiness of an optional string: `None` and the empty string are
falsy. -/
def pyTruthy : Option String → Bool
  | none => false
  | some s => !s.isEmpty

/-- The complete foreign-key dictionary built by `build_fk_dict`;
`referred_schema` is optional because the schema override replaces it with
`None`. -/
structure FkDict where
  name : String
  constrained_columns : List String
  referred_table : String
  referred_columns : List String
  referred_schema : Option String
  deriving DecidableEq

/-- `build_fk_dict`: parse the constraint string, add the name, and force
`referred_schema` to `None` when the `schema_name` argument is falsy. -/
def build_fk_dict (fk_name : String) (fk_constraint_string : String)
    (schema_name : Option String) : Except String FkDict :=
  match _parse_fk_from_constraint_string fk_constraint_string with
  | Except.error e => Except.error e
  | Except.ok base =>
    Except.ok
      { name := fk_name
        constrained_columns := base.constrained_columns
        referred_table := base.referred_table
        referred_columns := base.referred_columns
        referred_schema :=
          if pyTruthy schema_name then some base.referred_schema else none }

/-- One row of DESCRIBE TABLE EXTENDED output, as produced by
`_describe_table_extended_result_to_dict_list`. -/
structure DteRow where
  col_name : String
  data_type : String
  deriving DecidableEq

/-- `match_dte_rows_by_value`: keep, in order, the rows whose `data_type`
contains the match string as a literal substring. -/
def match_dte_rows_by_value (dte_output : List DteRow) (mtch : String) : List DteRow :=
  match dte_output with
  | [] => []
  | r :: rest =>
    if containsSub r.data_type.data mtch.data then
      r :: match_dte_rows_by_value rest mtch
    else
      match_dte_rows_by_value rest mtch

/-- `get_fk_strings_from_dte_output`: the rows carrying a FOREIGN KEY
constraint. -/
def get_fk_strings_from_dte_output (dte_output : List DteRow) : List DteRow :=
  match_dte_rows_by_value dte_output "FOREIGN KEY"

/-- `get_pk_strings_from_dte_output`: the rows carrying a PRIMARY KEY
constraint.  The Python signature is `Optional[...]`, so the codomain is an
`Option`; the body always returns the list itself, never `None`. -/
def get_pk_strings_from_dte_output (dte_output : List DteRow) : Option (List DteRow) :=
  some (match_dte_rows_by_value dte_output "PRIMARY KEY")

/-- Specification-level notion: at index `i` of `s` there is an occurrence
of a backtick-quoted identifier with content `w` (nonempty, all characters
in `[A-Za-z0-9_]`). -/
def identOccursAt (s : List Char) (i : Nat) (w : List Char) : Prop :=
  w ≠ [] ∧ (∀ c ∈ w, isIdentChar c = true) ∧ ∃ t, s.drop i = btick :: (w ++ btick :: t)

/-- `beginsWith` agrees with the propositional "initial segment" relation. -/
theorem beginsWith_iff (h n : List Char) : beginsWith h n = true ↔ ∃ q, h = n ++ q := by
  induction n generalizing h with
  | nil => simp [beginsWith]
  | cons d ds ih =>
    cases h with
    | nil => simp [beginsWith]
    | cons c cs =>
      rw [beginsWith, Bool.and_eq_true, beq_iff_eq, ih]
      constructor
      · rintro ⟨rfl, q, rfl⟩
        exact ⟨q, rfl⟩
      · rintro ⟨q, hq⟩
        rw [List.cons_append] at hq
        injection hq with h1 h2
        exact ⟨h1, q, h2⟩

/-- `containsSub` agrees with the propositional "contiguous substring"
relation, i.e. with Python's `in` operator on strings. -/
theorem containsSub_iff (h n : List Char) : containsSub h n = true ↔ ∃ p q, h = p ++ n ++ q := by
  induction h with
  | nil =>
    rw [containsSub, beginsWith_iff]
    constructor
    · rintro ⟨q, hq⟩
      exact ⟨[], q, by simpa using hq⟩
    · rintro ⟨p, q, hpq⟩
      have hp : p = [] := by cases p <;> simp_all
      have hn : n = [] := by subst hp; cases n <;> simp_all
      exact ⟨[], by simp [hn]⟩
  | cons c t ih =>
    rw [containsSub, Bool.or_eq_true, beginsWith_iff, ih]
    constructor
    · rintro (⟨q, hq⟩ | ⟨p, q, hpq⟩)
      · exact ⟨[], q, by simpa using hq⟩
      · exact ⟨c :: p, q, by simp [hpq]⟩
    · rintro ⟨p, q, hpq⟩
      cases p with
      | nil => exact Or.inl ⟨q, by simpa using hpq⟩
      | cons x xs =>
        rw [List.cons_append, List.cons_append] at hpq
        injection hpq with h1 h2
        exact Or.inr ⟨xs, q, h2⟩

/-- The row-selection loop is the same function as `List.filter` over the
substring test. -/
theorem match_dte_eq_filter (rows : List DteRow) (m : String) :
    match_dte_rows_by_value rows m = rows.filter (fun r => containsSub r.data_type.data m.data) := by
  induction rows with
  | nil => rfl
  | cons r rest ih =>
    rw [match_dte_rows_by_value, ih, List.filter_cons]

/-- C1: on the synthetic line ``FOREIGN KEY (`p`,`q`) REFERENCES
`cat`.`sch`.`tbl` (`x`,`y`)`` with name `fk1` and ambient schema `sch`,
`build_fk_dict` returns exactly the descriptor with name `fk1`, constrained
columns `p, q` in order, referred table `tbl`, referred schema `sch`, and
referred columns `x, y` in order. -/
theorem build_fk_dict_round_trip :
    build_fk_dict "fk1" "FOREIGN KEY (`p`,`q`) REFERENCES `cat`.`sch`.`tbl` (`x`,`y`)" (some "sch") =
      Except.ok
        { name := "fk1"
          constrained_columns := ["p", "q"]
          referred_table := "tbl"
          referred_columns := ["x", "y"]
          referred_schema := some "sch" } := by
  rfl

/-- C7: the error matcher answers true exactly when the message contains one
of the two known "table not found" substrings (literal containment), and in
particular answers false on "Syntax error". -/
theorem table_not_found_matcher_spec :
    (∀ msg : String, _match_table_not_found_string msg = true ↔
      (∃ p q, msg.data = p ++ ("Table or view not found" : String).data ++ q) ∨
      (∃ p q, msg.data = p ++ ("TABLE_OR_VIEW_NOT_FOUND" : String).data ++ q)) ∧
    _match_table_not_found_string "Syntax error" = false := by
  refine ⟨fun msg => ?_, by decide⟩
  rw [_match_table_not_found_string, Bool.or_eq_true, containsSub_iff, containsSub_iff]
  exact Iff.rfl

/-- Witness for C7 at a concrete message containing the newer substring. -/
theorem table_not_found_matcher_spec_witness :
    _match_table_not_found_string "x TABLE_OR_VIEW_NOT_FOUND y" = true :=
  (table_not_found_matcher_spec.1 "x TABLE_OR_VIEW_NOT_FOUND y").mpr
    (Or.inr ⟨("x " : String).data, (" y" : String).data, rfl⟩)

/-- C9: the row filter returns exactly the subsequence of rows whose
`data_type` contains the match string as a literal substring: the result is
a sublist of the input (order preserved, nothing duplicated or modified),
it equals the filter over the substring test, and that test is literal
containment. -/
theorem match_dte_rows_spec (rows : List DteRow) (m : String) :
    List.Sublist (match_dte_rows_by_value rows m) rows ∧
    match_dte_rows_by_value rows m =
      rows.filter (fun r => containsSub r.data_type.data m.data) ∧
    (∀ r : DteRow, containsSub r.data_type.data m.data = true ↔
      ∃ p q, r.data_type.data = p ++ m.data ++ q) := by
  refine ⟨?_, match_dte_eq_filter rows m, fun r => containsSub_iff _ _⟩
  rw [match_dte_eq_filter rows m]
  exact List.filter_sublist rows

/-- Witness for C9: on the rows from the spec example the filter keeps
exactly the first row. -/
theorem match_dte_rows_spec_witness :
    match_dte_rows_by_value
      [⟨"c1", "FOREIGN KEY (`a`)"⟩, ⟨"c2", "int"⟩] "FOREIGN KEY" =
      [⟨"c1", "FOREIGN KEY (`a`)"⟩] := by
  rw [(match_dte_rows_spec [⟨"c1", "FOREIGN KEY (`a`)"⟩, ⟨"c2", "int"⟩] "FOREIGN KEY").2.1]
  rfl

/-- C4: when no row's `data_type` contains "PRIMARY KEY", the primary-key
selection returns the empty list (Python `[]`), not the `None` that its
`Optional` annotation would also allow. -/
theorem get_pk_strings_no_match_empty (rows : List DteRow)
    (h : ∀ r ∈ rows, ¬ ∃ p q, r.data_type.data = p ++ ("PRIMARY KEY" : String).data ++ q) :
    get_pk_strings_from_dte_output rows = some [] := by
  rw [get_pk_strings_from_dte_output]
  refine congrArg some ?_
  induction rows with
  | nil => rfl
  | cons r rest ih =>
    have hr : containsSub r.data_type.data ("PRIMARY KEY" : String).data = false := by
      rw [Bool.eq_false_iff]
      intro hc
      exact h r (by simp) ((containsSub_iff _ _).mp hc)
    rw [match_dte_rows_by_value, hr]
    simp only [Bool.false_eq_true, if_false]
    exact ih (fun x hx => h x (by simp [hx]))

/-- Witness for C4 at a one-row input with no constraint text. -/
theorem get_pk_strings_no_match_empty_witness :
    get_pk_strings_from_dte_output [⟨"c1", "int"⟩] = some [] :=
  get_pk_strings_no_match_empty [⟨"c1", "int"⟩]
    (by
      intro r hr hex
      rw [List.mem_singleton] at hr
      subst hr
      have : containsSub ("int" : String).data ("PRIMARY KEY" : String).data = true :=
        (containsSub_iff _ _).mpr hex
      exact absurd this (by decide))

/-- C2: when the ambient schema argument is falsy (Python `None` or the
empty string), `build_fk_dict` forces `referred_schema` to `None` and keeps
every other field exactly as parsed from the constraint string. -/
theorem build_fk_dict_falsy_schema (fk_name s : String) (sch : Option String) (b : FkBase)
    (hfal : pyTruthy sch = false)
    (hp : _parse_fk_from_constraint_string s = Except.ok b) :
    build_fk_dict fk_name s sch =
      Except.ok
        { name := fk_name
          constrained_columns := b.constrained_columns
          referred_table := b.referred_table
          referred_columns := b.referred_columns
          referred_schema := none } := by
  rw [build_fk_dict, hp, hfal]
  simp

/-- Witness for C2 on the round-trip line with no ambient schema. -/
theorem build_fk_dict_falsy_schema_witness :
    pyTruthy none = false ∧
    _parse_fk_from_constraint_string
        "FOREIGN KEY (`p`,`q`) REFERENCES `cat`.`sch`.`tbl` (`x`,`y`)" =
      Except.ok
        { constrained_columns := ["p", "q"]
          referred_table := "tbl"
          referred_columns := ["x", "y"]
          referred_schema := "sch" } ∧
    build_fk_dict "fk1" "FOREIGN KEY (`p`,`q`) REFERENCES `cat`.`sch`.`tbl` (`x`,`y`)" none =
      Except.ok
        { name := "fk1"
          constrained_columns := ["p", "q"]
          referred_table := "tbl"
          referred_columns := ["x", "y"]
          referred_schema := none } :=
  ⟨rfl, rfl,
    build_fk_dict_falsy_schema "fk1"
      "FOREIGN KEY (`p`,`q`) REFERENCES `cat`.`sch`.`tbl` (`x`,`y`)" none
      { constrained_columns := ["p", "q"]
        referred_table := "tbl"
        referred_columns := ["x", "y"]
        referred_schema := "sch" } rfl rfl⟩

/-- C10: when the ambient schema argument is truthy, `referred_schema` is
the schema text parsed from the constraint string; the argument acts only
as a presence gate and its value is never copied into the result, so any
two truthy arguments give the same descriptor. -/
theorem build_fk_dict_truthy_schema (fk_name s : String) (schArg : Option String) (b : FkBase)
    (ht : pyTruthy schArg = true)
    (hp : _parse_fk_from_constraint_string s = Except.ok b) :
    build_fk_dict fk_name s schArg =
      Except.ok
        { name := fk_name
          constrained_columns := b.constrained_columns
          referred_table := b.referred_table
          referred_columns := b.referred_columns
          referred_schema := some b.referred_schema } ∧
    (∀ schArg2 : Option String, pyTruthy schArg2 = true →
      build_fk_dict fk_name s schArg2 = build_fk_dict fk_name s schArg) := by
  constructor
  · rw [build_fk_dict, hp, ht]
    simp
  · intro schArg2 ht2
    rw [build_fk_dict, build_fk_dict, hp, ht, ht2]

/-- Witness for C10: the schema argument value `zzz` is not copied into the
descriptor, which carries the parsed text `sch` instead. -/
theorem build_fk_dict_truthy_schema_witness :
    pyTruthy (some "zzz") = true ∧
    build_fk_dict "fk1" "FOREIGN KEY (`p`,`q`) REFERENCES `cat`.`sch`.`tbl` (`x`,`y`)"
        (some "zzz") =
      Except.ok
        { name := "fk1"
          constrained_columns := ["p", "q"]
          referred_table := "tbl"
          referred_columns := ["x", "y"]
          referred_schema := some "sch" } :=
  ⟨rfl,
    (build_fk_dict_truthy_schema "fk1"
      "FOREIGN KEY (`p`,`q`) REFERENCES `cat`.`sch`.`tbl` (`x`,`y`)" (some "zzz")
      { constrained_columns := ["p", "q"]
        referred_table := "tbl"
        referred_columns := ["x", "y"]
        referred_schema := "sch" } rfl rfl).1⟩

/-- C5: on an input with no `REFERENCES ... (` pattern, or with fewer than
two parenthesised identifier groups, both `_parse_fk_from_constraint_string`
and `build_fk_dict` signal an error (Python `TypeError` / `IndexError`) and
return no descriptor. -/
theorem build_fk_dict_malformed_error (fk_name s : String) (sch : Option String)
    (h : refFindAll s.data = [] ∨ (extract_identifier_groups_from_string s).length < 2) :
    (∃ e, _parse_fk_from_constraint_string s = Except.error e) ∧
    (∃ e, build_fk_dict fk_name s sch = Except.error e) := by
  have hmain : ∃ e, _parse_fk_from_constraint_string s = Except.error e := by
    rcases h with h0 | h1
    · have h3 : extract_three_level_identifier_from_constraint_string s = Except.ok none := by
        rw [extract_three_level_identifier_from_constraint_string, h0]
      exact ⟨_, by rw [_parse_fk_from_constraint_string, h3]⟩
    · have hg : (extract_identifier_groups_from_string s)[1]? = none :=
        List.getElem?_eq_none (by omega)
      rcases hE : extract_three_level_identifier_from_constraint_string s with e | o
      · exact ⟨e, by rw [_parse_fk_from_constraint_string, hE]⟩
      · cases o with
        | none => exact ⟨_, by rw [_parse_fk_from_constraint_string, hE]⟩
        | some tl =>
          refine ⟨"IndexError: tuple index out of range", ?_⟩
          rw [_parse_fk_from_constraint_string, hE, hg]
          cases h0 : (extract_identifier_groups_from_string s)[0]? <;> rfl
  rcases hmain with ⟨e, he⟩
  exact ⟨⟨e, he⟩, e, by rw [build_fk_dict, he]⟩

/-- Witness for C5 on an input with neither pattern nor groups. -/
theorem build_fk_dict_malformed_error_witness :
    refFindAll ("hello" : String).data = [] ∧
    (∃ e, _parse_fk_from_constraint_string "hello" = Except.error e) ∧
    (∃ e, build_fk_dict "n" "hello" none = Except.error e) :=
  ⟨rfl,
    (build_fk_dict_malformed_error "n" "hello" none (Or.inl rfl)).1,
    (build_fk_dict_malformed_error "n" "hello" none (Or.inl rfl)).2⟩

/-- C6: when the input contains no `REFERENCES ... (` pattern the
three-level extractor returns Python `None` without raising, and when the
pattern occurs the result is built from the first match only: two inputs
whose first captured groups coincide get identical results. -/
theorem extract_three_level_none_and_first_match (s t : String) :
    (refFindAll s.data = [] →
      extract_three_level_identifier_from_constraint_string s = Except.ok none) ∧
    (∀ m rs rt, refFindAll s.data = m :: rs → refFindAll t.data = m :: rt →
      extract_three_level_identifier_from_constraint_string s =
        extract_three_level_identifier_from_constraint_string t) := by
  constructor
  · intro h
    rw [extract_three_level_identifier_from_constraint_string, h]
  · intro m rs rt hs ht
    rw [extract_three_level_identifier_from_constraint_string, hs,
      extract_three_level_identifier_from_constraint_string, ht]

/-- Witness for C6: an input whose pattern occurs twice gives the same
result as an input carrying only the first occurrence. -/
theorem extract_three_level_none_and_first_match_witness :
    refFindAll ("REFERENCES `a`.`b`.`c` ( REFERENCES `a`.`b`.`c` (" : String).data =
      ["`a`.`b`.`c`", "`a`.`b`.`c`"] ∧
    refFindAll ("REFERENCES `a`.`b`.`c` (x" : String).data = ["`a`.`b`.`c`"] ∧
    extract_three_level_identifier_from_constraint_string
        "REFERENCES `a`.`b`.`c` ( REFERENCES `a`.`b`.`c` (" =
      extract_three_level_identifier_from_constraint_string "REFERENCES `a`.`b`.`c` (x" :=
  ⟨rfl, rfl,
    (extract_three_level_none_and_first_match
        "REFERENCES `a`.`b`.`c` ( REFERENCES `a`.`b`.`c` (" "REFERENCES `a`.`b`.`c` (x").2
      "`a`.`b`.`c`" ["`a`.`b`.`c`"] [] rfl rfl⟩

/-- Shifting an identifier occurrence across one leading character. -/
theorem identOccursAt_cons (c : Char) (s : List Char) (i : Nat) (w : List Char) :
    identOccursAt (c :: s) (i + 1) w ↔ identOccursAt s i w := by
  unfold identOccursAt
  rw [List.drop_succ_cons]

/-- Shifting an identifier occurrence across a dropped prefix. -/
theorem identOccursAt_shift (s t : List Char) (k i : Nat) (w : List Char)
    (hk : s.drop k = t) (h : identOccursAt t i w) : identOccursAt s (k + i) w := by
  obtain ⟨h1, h2, tl, h3⟩ := h
  refine ⟨h1, h2, tl, ?_⟩
  rw [← List.drop_drop, hk, h3]

/-- `takeWhile` and `dropWhile` on a list made of a satisfying block, a
failing separator and a tail. -/
theorem takeWhile_dropWhile_all (p : Char → Bool) (w : List Char) (b : Char) (t : List Char)
    (hw : ∀ c ∈ w, p c = true) (hb : p b = false) :
    (w ++ b :: t).takeWhile p = w ∧ (w ++ b :: t).dropWhile p = b :: t := by
  induction w with
  | nil => simp [List.takeWhile_cons, List.dropWhile_cons, hb]
  | cons c cs ih =>
    have hc : p c = true := hw c (by simp)
    obtain ⟨ih1, ih2⟩ := ih (fun x hx => hw x (by simp [hx]))
    constructor
    · rw [List.cons_append, List.takeWhile_cons, if_pos hc, ih1]
    · rw [List.cons_append, List.dropWhile_cons, if_pos hc, ih2]

/-- Dropping a one-character head, a block and one more character. -/
theorem drop_head_block (run : List Char) (c d : Char) (tail : List Char) :
    (c :: (run ++ d :: tail)).drop (run.length + 2) = tail := by
  have h1 : (run ++ [d]).length = run.length + 1 := by simp
  calc (c :: (run ++ d :: tail)).drop (run.length + 2)
      = (run ++ d :: tail).drop (run.length + 1) := List.drop_succ_cons
    _ = ((run ++ [d]) ++ tail).drop ((run ++ [d]).length) := by
        rw [← List.append_cons, h1]
    _ = tail := List.drop_left _ _

/-- Soundness of the identifier scanner: every emitted string is a nonempty
backtick-quoted identifier occurring in the scanned text. -/
theorem scanIdentAux_sound :
    ∀ (f : Nat) (s : List Char) (x : String), x ∈ scanIdentAux f s →
      x.data ≠ [] ∧ ∃ i, identOccursAt s i x.data := by
  intro f
  induction f with
  | zero =>
    intro s x hx
    simp [scanIdentAux] at hx
  | succ f ih =>
    intro s x hx
    cases s with
    | nil => simp [scanIdentAux] at hx
    | cons c rest =>
      have step : x ∈ scanIdentAux f rest →
          x.data ≠ [] ∧ ∃ i, identOccursAt (c :: rest) i x.data := by
        intro hM
        obtain ⟨hne, i, hocc⟩ := ih rest x hM
        exact ⟨hne, i + 1, (identOccursAt_cons c rest i x.data).mpr hocc⟩
      simp only [scanIdentAux] at hx
      split at hx
      next hc =>
        split at hx
        next d tail hdw =>
          split at hx
          next hd =>
            split at hx
            next hrun => exact step hx
            next hrun =>
              have hrest : rest = rest.takeWhile isIdentChar ++ btick :: tail := by
                conv_lhs => rw [← List.takeWhile_append_dropWhile isIdentChar rest]
                rw [hdw, hd]
              rcases List.mem_cons.mp hx with hx1 | hx2
              · subst hx1
                exact ⟨hrun, 0, hrun, fun ch hch => List.mem_takeWhile_imp hch, tail,
                  by rw [List.drop_zero, hc]; exact congrArg (List.cons btick) hrest⟩
              · obtain ⟨hne, i, hocc⟩ := ih tail x hx2
                refine ⟨hne, (rest.takeWhile isIdentChar).length + 2 + i,
                  identOccursAt_shift _ _ _ _ _ ?_ hocc⟩
                have hdb := drop_head_block (rest.takeWhile isIdentChar) c btick tail
                rw [← hrest] at hdb
                exact hdb
          next hd => exact step hx
        next hdw => exact step hx
      next hc => exact step hx

/-- Completeness of the identifier scanner on empty output: if the scan
finds nothing (with enough fuel) then no backtick-quoted identifier occurs
anywhere in the text. -/
theorem scanIdentAux_nil :
    ∀ (f : Nat) (s : List Char), s.length ≤ f → scanIdentAux f s = [] →
      ∀ i w, ¬ identOccursAt s i w := by
  intro f
  induction f with
  | zero =>
    intro s hlen _ i w hocc
    have hs : s = [] := List.length_eq_zero.mp (Nat.le_zero.mp hlen)
    obtain ⟨_, _, t, h3⟩ := hocc
    rw [hs, List.drop_nil] at h3
    exact absurd h3 (by simp)
  | succ f ih =>
    intro s hlen h0 i w hocc
    cases s with
    | nil =>
      obtain ⟨_, _, t, h3⟩ := hocc
      rw [List.drop_nil] at h3
      exact absurd h3 (by simp)
    | cons c rest =>
      have hlen' : rest.length ≤ f := by
        simp only [List.length_cons] at hlen
        omega
      have stepS : scanIdentAux f rest = [] → ∀ n w', identOccursAt (c :: rest) (n + 1) w' → False :=
        fun hr n w' h => ih rest hlen' hr n w' ((identOccursAt_cons c rest n w').mp h)
      have zero_struct : ∀ w', identOccursAt (c :: rest) 0 w' →
          w' ≠ [] ∧ (∀ ch ∈ w', isIdentChar ch = true) ∧
            ∃ t, c = btick ∧ rest = w' ++ btick :: t := by
        intro w' hw
        obtain ⟨h1, h2, t, h3⟩ := hw
        rw [List.drop_zero] at h3
        injection h3 with h4 h5
        exact ⟨h1, h2, t, h4, h5⟩
      simp only [scanIdentAux] at h0
      split at h0
      next hc =>
        split at h0
        next d tail hdw =>
          split at h0
          next hd =>
            split at h0
            next hrun =>
              cases i with
              | zero =>
                obtain ⟨h1, h2, t, h4, h5⟩ := zero_struct w hocc
                have htk := (takeWhile_dropWhile_all isIdentChar w btick t h2 (by decide)).1
                rw [h5, htk] at hrun
                exact h1 hrun
              | succ n => exact stepS h0 n w hocc
            next hrun => exact absurd h0 (by simp)
          next hd =>
            cases i with
            | zero =>
              obtain ⟨h1, h2, t, h4, h5⟩ := zero_struct w hocc
              have hdr := (takeWhile_dropWhile_all isIdentChar w btick t h2 (by decide)).2
              rw [h5, hdr] at hdw
              injection hdw with h6 h7
              exact hd h6.symm
            | succ n => exact stepS h0 n w hocc
        next hdw =>
          cases i with
          | zero =>
            obtain ⟨h1, h2, t, h4, h5⟩ := zero_struct w hocc
            have hdr := (takeWhile_dropWhile_all isIdentChar w btick t h2 (by decide)).2
            rw [h5, hdr] at hdw
            exact absurd hdw (by simp)
          | succ n => exact stepS h0 n w hocc
      next hc =>
        cases i with
        | zero =>
          obtain ⟨h1, h2, t, h4, h5⟩ := zero_struct w hocc
          exact hc h4
        | succ n => exact stepS h0 n w hocc

/-- The identifier extractor returns the empty list exactly when no
backtick-quoted identifier occurs in the input. -/
theorem extract_identifiers_nil_iff (s : String) :
    extract_identifiers_from_string s = [] ↔ ∀ i w, ¬ identOccursAt s.data i w := by
  constructor
  · intro h
    exact scanIdentAux_nil s.data.length s.data (Nat.le_refl _) h
  · intro h
    cases hE : extract_identifiers_from_string s with
    | nil => rfl
    | cons x xs =>
      have hx : x ∈ extract_identifiers_from_string s := by
        rw [hE]
        exact List.mem_cons_self x xs
      obtain ⟨hne, i, hocc⟩ := scanIdentAux_sound _ _ _ hx
      exact absurd hocc (h i x.data)

/-- The backtick never survives `stripBackticks`. -/
theorem btick_not_mem_strip (l : List Char) : btick ∉ stripBackticks l := by
  intro h
  rw [stripBackticks] at h
  have := (List.mem_filter.mp h).2
  simp at this

/-- C8 counterexample: the input carries an occurrence of a backtick-quoted
identifier (`b`, starting at index 2) that overlaps the first match, yet the
extractor output is just `["a"]` and does not contain "b" — so the
extractor does not return all substrings of the required form. -/
theorem extract_identifiers_overlap_counterexample :
    identOccursAt ("`a`b`" : String).data 2 ['b'] ∧
    extract_identifiers_from_string "`a`b`" = ["a"] ∧
    "b" ∉ extract_identifiers_from_string "`a`b`" := by
  refine ⟨⟨by decide, by decide, [], by decide⟩, by decide, by decide⟩

/-- C8 (amended): the extractor collects nonempty backtick-quoted
identifiers actually occurring in the input — scanning left to right and
non-overlapping, not every (possibly overlapping) such substring — it
returns the empty sequence exactly when no such substring occurs, and being
a total function it never raises. -/
theorem extract_identifiers_sound_and_empty :
    (∀ (s : String), ∀ x ∈ extract_identifiers_from_string s,
      x ≠ "" ∧ ∃ i, identOccursAt s.data i x.data) ∧
    (∀ s : String, extract_identifiers_from_string s = [] ↔
      ∀ i w, ¬ identOccursAt s.data i w) := by
  refine ⟨fun s x hx => ?_, extract_identifiers_nil_iff⟩
  obtain ⟨hne, i, hocc⟩ := scanIdentAux_sound _ _ _ hx
  refine ⟨fun hcontra => hne ?_, i, hocc⟩
  rw [hcontra]

/-- Witness for C8 (amended) on the one-identifier input. -/
theorem extract_identifiers_sound_and_empty_witness :
    ("a" : String) ≠ "" ∧ ∃ i, identOccursAt ("`a`" : String).data i ("a" : String).data :=
  extract_identifiers_sound_and_empty.1 "`a`" "a" (by decide)

/-- C3 counterexample: on this input the three-level extractor succeeds,
yet the catalog part contains the character `!`, which is outside
`[A-Za-z0-9_]`. -/
theorem extract_three_level_charset_counterexample :
    extract_three_level_identifier_from_constraint_string "REFERENCES a!b.c.d (" =
      Except.ok (some { catalog := "a!b", schema := "c", table := "d" }) ∧
    '!' ∈ ("a!b" : String).data ∧ isIdentChar '!' = false :=
  ⟨rfl, by decide, by decide⟩

/-- C3 (amended): every identifier produced by the identifier extractor
contains only characters in `[A-Za-z0-9_]`; the three parts of a qualified
name are only guaranteed to be backtick-free — they may contain characters
outside `[A-Za-z0-9_]` when the input does. -/
theorem identifier_charset_invariant :
    (∀ (s : String), ∀ x ∈ extract_identifiers_from_string s,
      ∀ c ∈ x.data, isIdentChar c = true) ∧
    (∀ (s : String) (d : ThreeLevelId),
      extract_three_level_identifier_from_constraint_string s = Except.ok (some d) →
      btick ∉ d.catalog.data ∧ btick ∉ d.schema.data ∧ btick ∉ d.table.data) := by
  constructor
  · intro s x hx
    obtain ⟨_, i, _, h2, _⟩ := scanIdentAux_sound _ _ _ hx
    exact h2
  · intro s d h
    rw [extract_three_level_identifier_from_constraint_string] at h
    split at h
    · exact absurd h (by simp)
    · rw [threeLevelFromMatch] at h
      split at h
      · simp only [Except.ok.injEq, Option.some.injEq] at h
        subst h
        exact ⟨btick_not_mem_strip _, btick_not_mem_strip _, btick_not_mem_strip _⟩
      · exact absurd h (by simp)

/-- Witness for C3 (amended): a backtick-free part and an in-class
identifier character, from concrete applications. -/
theorem identifier_charset_invariant_witness :
    btick ∉ ("cat" : String).data ∧ isIdentChar 'p' = true :=
  ⟨(identifier_charset_invariant.2 "REFERENCES `cat`.`sch`.`tbl` ("
      { catalog := "cat", schema := "sch", table := "tbl" } rfl).1,
    identifier_charset_invariant.1 "(`p`)" "p" (by decide) 'p' (by decide)⟩
